import Mathlib

/-!
# Verification of OptimisticNormalFormSolver

Shallow embedding of the core of the repository:

* `src/utils/game_maker.py` — `make_game`, the game generator;
* `src/utils/sample_strategy.py` — the index-selection strategies
  (`descending_active`, `random_active`, `random_index`, `opt_then_random`)
  and the distribution builder `ind_to_prob_matrix_one_zero`;
* the confidence-bound tracker (`utils/algos.py`, absent from the sources),
  modelled from the spec.

Conventions of the embedding:

* Python floats are modelled by `ℚ`; NumPy's NaN sentinel (used both for
  "unobserved" entries of the known-utility tensors and for possible NaN
  entries of `OptPhi`/`PesPhi`) is modelled by `Option ℚ` with `none` = NaN.
  NaN comparison semantics (`NaN > x` is false, `np.max` propagates NaN,
  `np.argmax` returns the first NaN position) are embedded explicitly below.
* NumPy's global random stream is modelled by explicit parameters: random
  tensor draws become function arguments, and a `np.random.choice` over a
  candidate list becomes a natural-number argument `r` reduced modulo the
  list length.  Functions of the source that consume no randomness get no
  such argument.
* k-player joint actions are maps `Fin k → ℕ`; payoff tensors are total
  functions on them, read only at indices below `n`.
-/

namespace ONFS

/-- Joint actions of a `k`-player game: one strategy index per player
(valid actions have every component `< n`). -/
def Act (k : ℕ) := Fin k → ℕ

/-- An action is valid for dimension `n` when every component is `< n`. -/
abbrev validAct (n : ℕ) {k : ℕ} (a : Act k) : Prop := ∀ q : Fin k, a q < n

/-- Replace player `p`'s component of the joint action `a` by `v`
(the slice-indexing `[slice(None)]*p + [i] + [Ellipsis]` of the source
reads or writes cells whose `p`-th component is `i`). -/
def updAct {k : ℕ} (a : Act k) (p : Fin k) (v : ℕ) : Act k :=
  Function.update a p v

/-!
## The game generator `make_game` (src/utils/game_maker.py, lines 4–47)

The `"random"` branch draws `Potential = rand.randint(-12500, 12501, shape)
/ 100000`; the draw is abstracted as the function argument `potDraw`.  The
per-player utility tensors start as zeros and are filled by the loop

    for i in range(1, n):
        u_p[slice i] = u_p[slice (i-1)] + Potential[slice i] - Potential[slice (i-1)]

so the cell of `u_p` at action `a` with `a p = i` satisfies the recurrence
embedded by `uGo` below; afterwards every tensor is shifted by `+ 0.25`.
The `"congestion"` branch returns `(n, k, congestion_functions_means)` with
the uniform draws abstracted as `congDraw`.  No other `game_type` returns.
-/

/-- Value of player `p`'s pre-offset utility tensor at the action
`updAct a p i`, by the loop recurrence of `make_game` (`u_p[slice 0] = 0`
from the `np.zeros` initialisation). -/
def uGo {k : ℕ} (P : Act k → ℚ) (p : Fin k) (a : Act k) : ℕ → ℚ
  | 0 => 0
  | i + 1 => uGo P p a i + P (updAct a p (i + 1)) - P (updAct a p i)

/-- Player `p`'s pre-offset utility tensor (`unknown_utilitys[p]` before
the constant shift): the cell at `a` is the loop value at slice index
`a p`. -/
def unknownUtility {k : ℕ} (P : Act k → ℚ) (p : Fin k) (a : Act k) : ℚ :=
  uGo P p a (a p)

/-- Player `p`'s returned utility tensor: the loop result shifted by the
constant `+ 0.25` (`unknown_utilitys[p] += 0.25`). -/
def finalUtility {k : ℕ} (P : Act k → ℚ) (p : Fin k) (a : Act k) : ℚ :=
  unknownUtility P p a + 1 / 4

/-- Result of `make_game`: either the `"random"` branch's
`(Potential, unknown_utilitys)` pair or the `"congestion"` branch's
`(number_facilities, number_agents, congestion_functions_means)` triple. -/
inductive MakeGameResult (k : ℕ) where
  | random (Potential : Act k → ℚ) (unknown_utilitys : Fin k → Act k → ℚ)
  | congestion (number_facilities number_agents : ℕ) (means : ℕ → ℕ → ℚ)

/-- The generator `make_game(game_type, n, k)`.  The two random draws of
the source (`rand.randint(-12500,12501,shape)/100000` and the uniform
facility means) are abstracted as the arguments `potDraw` and `congDraw`;
a `game_type` matching neither branch falls through and returns `None`. -/
def make_game (game_type : String) (n k : ℕ) (potDraw : Act k → ℚ)
    (congDraw : ℕ → ℕ → ℚ) : Option (MakeGameResult k) :=
  if game_type = "random" then
    some (.random potDraw (fun p a => finalUtility potDraw p a))
  else if game_type = "congestion" then
    some (.congestion n k congDraw)
  else
    none

/-!
## Index-selection strategies (src/utils/sample_strategy.py)

The strategies read a game object with two-dimensional `n × n` tensors
`OptPhi`, `PesPhi` and the first player's known-utility tensor.  The game
class itself (`game.py`) is not among the sources; its fields are modelled
from the spec (§3): `KnownUs[0]` and `KnownU1` both denote player 1's
known-utility tensor, whose unobserved cells hold the NaN sentinel.
Entries are `Option ℚ` with `none` standing for NaN.
-/

/-- State read by the 2-player index-selection strategies.  Modelled from
the spec: the game class is absent from the sources; `KnownU1` stands for
both `game.KnownU1` and `game.KnownUs[0]` (player 1's known-utility
tensor), as in spec §3.  Tensors are total functions read only on the
`n × n` grid. -/
structure GameState where
  n : ℕ
  OptPhi : ℕ × ℕ → Option ℚ
  PesPhi : ℕ × ℕ → Option ℚ
  KnownU1 : ℕ × ℕ → Option ℚ

/-- Row-major enumeration of the `n × n` grid, the order in which
`np.ndindex`, `np.argwhere` and flattened (`axis=None`) traversals visit
cells. -/
def cells (n : ℕ) : List (ℕ × ℕ) :=
  (List.range n).product (List.range n)

/-- NumPy strict `>` on possibly-NaN scalars: false whenever either
operand is NaN. -/
def fgt : Option ℚ → Option ℚ → Bool
  | some a, some b => b < a
  | _, _ => false

/-- NumPy `>=` on possibly-NaN scalars: false whenever either operand is
NaN. -/
def fge : Option ℚ → Option ℚ → Bool
  | some a, some b => b ≤ a
  | _, _ => false

/-- NaN-propagating subtraction (used for `OptPhi - PesPhi`). -/
def fsub : Option ℚ → Option ℚ → Option ℚ
  | some a, some b => some (a - b)
  | _, _ => none

/-- NumPy `np.max` over a flattened tensor: propagates NaN; reducing an
empty array raises, mapped to `none`. -/
def npMax : List (Option ℚ) → Option ℚ
  | [] => none
  | h :: t =>
    t.foldl
      (fun acc x =>
        match acc, x with
        | some a, some b => some (max a b)
        | _, _ => none)
      h

/-- NumPy `np.argmax` over the row-major enumeration: the position of the
first NaN when one is present, otherwise the first position attaining the
maximum; an empty array raises, mapped to `none`. -/
def npArgmax (l : List (ℕ × ℕ)) (f : ℕ × ℕ → Option ℚ) : Option (ℕ × ℕ) :=
  match l.find? (fun c => (f c).isNone) with
  | some c => some c
  | none =>
    l.foldl
      (fun best c =>
        match best with
        | none => some c
        | some b => if fgt (f c) (f b) then some c else some b)
      none

/-- Value of `np.max(game.PesPhi)`. -/
def maxPes (g : GameState) : Option ℚ :=
  npMax ((cells g.n).map g.PesPhi)

/-- Value of `np.argwhere(np.isnan(game.KnownU1))[0]` when it exists: the
first unexplored cell in row-major order (`none` when every cell is
known, in which case the callers' `np.any` guard is false). -/
def firstUnknown (g : GameState) : Option (ℕ × ℕ) :=
  (cells g.n).find? (fun c => (g.KnownU1 c).isNone)

/-- A dense NumPy tensor: a shape and an entry for every index list. -/
structure NdTensor where
  shape : List ℕ
  entry : List ℕ → ℚ

/-- All index lists of a given shape, row-major. -/
def idxLists : List ℕ → List (List ℕ)
  | [] => [[]]
  | d :: ds => (List.range d).flatMap (fun i => (idxLists ds).map (i :: ·))

/-- Sum of all entries of a tensor (`np.sum`). -/
def tensorSum (t : NdTensor) : ℚ :=
  ((idxLists t.shape).map t.entry).sum

/-- The call `ind_to_prob_matrix_one_zero(i, j, game.n)` made by the
strategy functions (lines 39, 44, 50, …): the callee (lines 321–325) binds
`sample_tuple = i`, `n = j`, `k = game.n`, builds `np.zeros([j] * game.n)`
and executes `prob_matrix[i] = 1`, which assigns the whole first-axis
slice `i`; it raises `IndexError` (mapped to `none`) when `i ≥ j` or the
shape is zero-dimensional.  It returns the pair `(i, prob_matrix)`. -/
def ind_to_prob_scalar (i j k : ℕ) : Option (ℕ × NdTensor) :=
  if i < j ∧ 0 < k then
    some (i, ⟨List.replicate k j, fun l => if l.head? = some i then 1 else 0⟩)
  else
    none

/-- Selection made by `random_index(game)` (lines 103–107): under the
`np.any(np.isnan(game.KnownUs[0]))` guard, the cell
`np.argwhere(np.isnan(game.KnownU1))[0]` — the first unexplored cell in
row-major order.  The source consumes no randomness. -/
def random_index_sel (g : GameState) : Option (ℕ × ℕ) :=
  firstUnknown g

/-- Full return of `random_index(game)`: the selected indices fed to
`ind_to_prob_matrix_one_zero(rand_ind1, rand_ind2, game.n)`. -/
def random_index (g : GameState) : Option (ℕ × NdTensor) :=
  match random_index_sel g with
  | some (i, j) => ind_to_prob_scalar i j g.n
  | none => none

/-- Selection made by `opt_then_random(game)` (lines 108–117): the
`OptPhi`-argmax cell if its known-utility entry is NaN, else the first
unexplored cell in row-major order, else nothing.  The source consumes no
randomness. -/
def opt_then_random_sel (g : GameState) : Option (ℕ × ℕ) :=
  match npArgmax (cells g.n) g.OptPhi with
  | none => none
  | some c => if (g.KnownU1 c).isNone then some c else firstUnknown g

/-- Full return of `opt_then_random(game)`. -/
def opt_then_random (g : GameState) : Option (ℕ × NdTensor) :=
  match opt_then_random_sel g with
  | some (i, j) => ind_to_prob_scalar i j g.n
  | none => none

/-- Sort key of `descending_active`: `game.OptPhi - game.PesPhi`. -/
def descKey (g : GameState) (c : ℕ × ℕ) : Option ℚ :=
  fsub (g.OptPhi c) (g.PesPhi c)

/-- Ascending comparison used by `np.argsort`, which sorts NaN to the
end. -/
def ascLE (x y : Option ℚ) : Bool :=
  match x, y with
  | some a, some b => a ≤ b
  | some _, none => true
  | none, some _ => false
  | none, none => true

/-- The traversal order of `descending_active`:
`np.argsort(OptPhi - PesPhi, axis=None)[::-1]`, i.e. cells sorted by key
ascending (NaN last) and then reversed. -/
def sortedCellsDesc (g : GameState) : List (ℕ × ℕ) :=
  ((cells g.n).mergeSort (fun a b => ascLE (descKey g a) (descKey g b))).reverse

/-- Selection made by `descending_active(game)` (lines 30–44): scan the
cells in descending-uncertainty order; return the first cell `c` with
`OptPhi[c] > np.max(PesPhi)` and `np.isnan(OptPhi[c])` (sic — the source
tests `OptPhi` for NaN, not `KnownU1`); otherwise fall back to the first
unexplored cell in row-major order. -/
def descending_active_sel (g : GameState) : Option (ℕ × ℕ) :=
  match (sortedCellsDesc g).find?
      (fun c => fgt (g.OptPhi c) (maxPes g) && (g.OptPhi c).isNone) with
  | some c => some c
  | none => firstUnknown g

/-- Full return of `descending_active(game)`. -/
def descending_active (g : GameState) : Option (ℕ × NdTensor) :=
  match descending_active_sel g with
  | some (i, j) => ind_to_prob_scalar i j g.n
  | none => none

/-- Candidate list built by `random_active` (lines 52–62): the row-major
cells with `OptPhi >= np.max(PesPhi)` whose known-utility entry is NaN
(`nan_new_act`; the parallel list `new_act` is dead code for the return
value). -/
def activeCands (g : GameState) : List (ℕ × ℕ) :=
  (cells g.n).filter
    (fun d => fge (g.OptPhi d) (maxPes g) && (g.KnownU1 d).isNone)

/-- Selection made by `random_active(game)` (lines 45–75); `r` is the
value drawn by `np.random.choice(range(len(nan_active_indices)))`, reduced
modulo the list length.  Branches: the `OptPhi`-argmax if unexplored; else
a uniformly drawn member of `nan_new_act` when that list has more than one
element; else the first unexplored cell in row-major order. -/
def random_active_sel (g : GameState) (r : ℕ) : Option (ℕ × ℕ) :=
  match npArgmax (cells g.n) g.OptPhi with
  | none => none
  | some c =>
    if (g.KnownU1 c).isNone then some c
    else
      if 1 < (activeCands g).length then
        (activeCands g).get? (r % (activeCands g).length)
      else
        firstUnknown g

/-- Full return of `random_active(game)`. -/
def random_active (g : GameState) (r : ℕ) : Option (ℕ × NdTensor) :=
  match random_active_sel g r with
  | some (i, j) => ind_to_prob_scalar i j g.n
  | none => none

/-!
## Confidence-bound tracker

Modelled from the spec: the tracker (`optimistic_solver` in
`utils/algos.py`) is not among the sources.  Spec §4.3: for every joint
action the bounds are `estimate ± c * f(t)` for an exploration constant
`c` and a confidence-growth function `f` of the elapsed iteration count;
they are recomputed after every sample.
-/

/-- Modelled from the spec: the state of the confidence-bound tracker at
one round — the current per-action estimate, the exploration constant `c`,
and the value `f(t)` of the confidence-growth function at the current
iteration count (spec §4.3). -/
structure TrackerState (α : Type) where
  est : α → ℚ
  c : ℚ
  fT : ℚ

/-- Modelled from the spec: the optimistic bound `OptPhi[a] = estimate +
c * f(t)` (spec §4.3). -/
def OptPhiT {α : Type} (s : TrackerState α) (a : α) : ℚ :=
  s.est a + s.c * s.fT

/-- Modelled from the spec: the pessimistic bound `PesPhi[a] = estimate -
c * f(t)` (spec §4.3). -/
def PesPhiT {α : Type} (s : TrackerState α) (a : α) : ℚ :=
  s.est a - s.c * s.fT

/-- Modelled from the spec: one confidence-bound update — after a sample
arrives the estimate is recomputed and `f(t)` moves to its next-round
value, with the exploration constant unchanged (spec §4.3). -/
def trackerUpdate {α : Type} (s : TrackerState α) (newEst : α → ℚ)
    (newfT : ℚ) : TrackerState α :=
  ⟨newEst, s.c, newfT⟩

/-!
## Concrete game states used by counterexamples and witnesses
-/

/-- A concrete `2 × 2` tensor given by its four grid entries. -/
def mat2 (a b c d : Option ℚ) : ℕ × ℕ → Option ℚ := fun x =>
  if x = (0, 0) then a
  else if x = (0, 1) then b
  else if x = (1, 0) then c
  else if x = (1, 1) then d
  else none

/-- A `3 × 3` state whose first unexplored cell (row-major) is `(0, 2)`:
`KnownU1` is known exactly on `(0,0)` and `(0,1)`. -/
def g3 : GameState :=
  ⟨3, fun _ => some 0, fun _ => some 0,
    fun c => if c.1 = 0 ∧ c.2 < 2 then some 1 else none⟩

/-- A `2 × 2` state where the unexplored cell `(1,1)` has the largest
uncertainty `OptPhi - PesPhi = 4` and `OptPhi (1,1) = 4 > 0 = max PesPhi`;
only `(0,0)` is explored. -/
def g4 : GameState :=
  ⟨2, mat2 (some 1) (some 2) (some 3) (some 4), fun _ => some 0,
    mat2 (some 1) none none none⟩

/-- A `2 × 2` state where the `OptPhi`-argmax `(0,0)` is explored and
exactly one unexplored cell, `(1,0)`, satisfies `OptPhi ≥ max PesPhi = 0`;
the row-major-first unexplored cell `(0,1)` has `OptPhi = -1 < 0`. -/
def g5 : GameState :=
  ⟨2, mat2 (some 5) (some (-1)) (some 3) (some (-1)), fun _ => some 0,
    mat2 (some 7) none none none⟩

/-- A `2 × 2` state with two unexplored cells `(0,1)` and `(1,1)`. -/
def g6 : GameState :=
  ⟨2, fun _ => some 0, fun _ => some 0,
    mat2 (some 1) none (some 2) none⟩

/-!
## Helper lemmas
-/

/-- Telescoping: the loop value at slice `i` is the potential difference
between slice `i` and slice `0`. -/
theorem uGo_eq_sub {k : ℕ} (P : Act k → ℚ) (p : Fin k) (a : Act k) (i : ℕ) :
    uGo P p a i = P (updAct a p i) - P (updAct a p 0) := by
  induction i with
  | zero => simp [uGo]
  | succ n ih => rw [uGo, ih]; ring

/-- Closed form of the pre-offset utility tensor: the potential at `a`
minus the potential at `a` with player `p`'s component zeroed. -/
theorem unknownUtility_eq {k : ℕ} (P : Act k → ℚ) (p : Fin k) (a : Act k) :
    unknownUtility P p a = P a - P (updAct a p 0) := by
  rw [unknownUtility, uGo_eq_sub]
  congr 2
  simp [updAct]

/-- Two actions that agree away from player `p` have the same `p`-zeroed
base action. -/
theorem updAct_zero_eq {k : ℕ} {a a' : Act k} {p : Fin k}
    (hdiff : ∀ q : Fin k, q ≠ p → a q = a' q) :
    updAct a p 0 = updAct a' p 0 := by
  funext q
  by_cases hq : q = p
  · subst hq; simp [updAct]
  · simp [updAct, Function.update_noteq hq, hdiff q hq]

/-- Characterisation of a successful `find?`: the result satisfies the
predicate and everything before it in the list fails it. -/
theorem find?_split {α : Type} (p : α → Bool) (l : List α) (a : α)
    (h : l.find? p = some a) :
    p a = true ∧ ∃ pre post, l = pre ++ a :: post ∧ ∀ b ∈ pre, p b = false := by
  induction l with
  | nil => simp [List.find?] at h
  | cons x xs ih =>
    rw [List.find?] at h
    by_cases hx : p x
    · rw [hx] at h
      simp at h
      subst h
      exact ⟨hx, [], xs, rfl, by simp⟩
    · simp [hx] at h
      obtain ⟨hpa, pre, post, hl, hpre⟩ := ih h
      refine ⟨hpa, x :: pre, post, by simp [hl], ?_⟩
      intro b hb
      rcases List.mem_cons.mp hb with hb | hb
      · subst hb; simpa using hx
      · exact hpre b hb

/-- A cell found by `firstUnknown` is unexplored. -/
theorem firstUnknown_unexplored (g : GameState) (c : ℕ × ℕ)
    (h : firstUnknown g = some c) : g.KnownU1 c = none := by
  have := List.find?_some h
  exact Option.isNone_iff_eq_none.mp this

/-- The selection condition of the `descending_active` loop is
unsatisfiable: a cell cannot at once compare strictly greater than
`max PesPhi` (which requires a non-NaN value) and be NaN. -/
theorem fgt_and_isNone_false (x y : Option ℚ) :
    (fgt x y && x.isNone) = false := by
  cases x <;> cases y <;> simp [fgt]

/-- The loop of `descending_active` never returns, so the function always
lands in its row-major fallback. -/
theorem descending_active_sel_eq_firstUnknown (g : GameState) :
    descending_active_sel g = firstUnknown g := by
  unfold descending_active_sel
  have hnone : (sortedCellsDesc g).find?
      (fun c => fgt (g.OptPhi c) (maxPes g) && (g.OptPhi c).isNone) = none := by
    apply List.find?_eq_none.mpr
    intro c _
    simp [fgt_and_isNone_false]
  rw [hnone]

/-!
## Claim theorems
-/

/-- Claim C1: for the `"random"` game kind, `make_game` returns a
potential tensor and per-player utility tensors such that for every
player `p` and every pair of valid joint actions `a`, `a'` differing only
in player `p`'s component, `utility_p(a) - utility_p(a')` equals
`Potential(a) - Potential(a')`; the identity holds both before and after
the constant `+0.25` offset (the returned tensors include the offset). -/
theorem make_game_random_potential_identity
    (n k : ℕ) (potDraw : Act k → ℚ) (congDraw : ℕ → ℕ → ℚ)
    (P : Act k → ℚ) (U : Fin k → Act k → ℚ)
    (hmk : make_game "random" n k potDraw congDraw =
      some (.random P U))
    (p : Fin k) (a a' : Act k)
    (ha : validAct n a) (ha' : validAct n a')
    (hdiff : ∀ q : Fin k, q ≠ p → a q = a' q) :
    unknownUtility P p a - unknownUtility P p a' = P a - P a' ∧
    U p a - U p a' = P a - P a' := by
  have hinj : potDraw = P ∧ (fun p a => finalUtility potDraw p a) = U := by
    simpa [make_game] using hmk
  obtain ⟨hP, hU⟩ := hinj
  subst hP
  subst hU
  have hbase := updAct_zero_eq hdiff
  constructor
  · rw [unknownUtility_eq, unknownUtility_eq, hbase]; ring
  · show finalUtility potDraw p a - finalUtility potDraw p a' =
      potDraw a - potDraw a'
    rw [finalUtility, finalUtility, unknownUtility_eq, unknownUtility_eq, hbase]
    ring

/-- Witness for C1 at a concrete game: `n = 2`, `k = 2`, a concrete draw,
actions `(1,0)` and `(0,0)` differing only in player 0's component. -/
theorem make_game_random_potential_identity_witness :
    (fun p a => finalUtility (fun a : Act 2 => (a 0 : ℚ) + 2 * (a 1 : ℚ)) p a)
        0 ![1, 0] -
      (fun p a => finalUtility (fun a : Act 2 => (a 0 : ℚ) + 2 * (a 1 : ℚ)) p a)
        0 ![0, 0] =
    (fun a : Act 2 => (a 0 : ℚ) + 2 * (a 1 : ℚ)) ![1, 0] -
      (fun a : Act 2 => (a 0 : ℚ) + 2 * (a 1 : ℚ)) ![0, 0] :=
  (make_game_random_potential_identity 2 2
    (fun a : Act 2 => (a 0 : ℚ) + 2 * (a 1 : ℚ)) (fun _ _ => 0)
    (fun a : Act 2 => (a 0 : ℚ) + 2 * (a 1 : ℚ))
    (fun p a => finalUtility (fun a : Act 2 => (a 0 : ℚ) + 2 * (a 1 : ℚ)) p a)
    rfl 0 ![1, 0] ![0, 0] (by decide) (by decide) (by decide)).2

/-- Claim C10: for `make_game("random", n, k)`, every returned utility
tensor takes the exact value `0.25` at any action whose own-player
component is `0` — the zero base slice of the telescoping construction
plus the constant offset. -/
theorem make_game_random_base_slice
    (n k : ℕ) (potDraw : Act k → ℚ) (congDraw : ℕ → ℕ → ℚ)
    (P : Act k → ℚ) (U : Fin k → Act k → ℚ)
    (hmk : make_game "random" n k potDraw congDraw =
      some (.random P U))
    (p : Fin k) (a : Act k) (ha : validAct n a) (h0 : a p = 0) :
    U p a = 1 / 4 := by
  have hinj : potDraw = P ∧ (fun p a => finalUtility potDraw p a) = U := by
    simpa [make_game] using hmk
  obtain ⟨hP, hU⟩ := hinj
  subst hP
  subst hU
  show finalUtility potDraw p a = 1 / 4
  rw [finalUtility, unknownUtility, h0]
  simp [uGo]

/-- Witness for C10 at a concrete game state: player 0's utility at the
action `(0, 1)` is exactly `0.25`. -/
theorem make_game_random_base_slice_witness :
    (fun p a => finalUtility (fun a : Act 2 => (a 0 : ℚ) + 2 * (a 1 : ℚ)) p a)
        0 ![0, 1] = 1 / 4 :=
  make_game_random_base_slice 2 2
    (fun a : Act 2 => (a 0 : ℚ) + 2 * (a 1 : ℚ)) (fun _ _ => 0)
    (fun a : Act 2 => (a 0 : ℚ) + 2 * (a 1 : ℚ))
    (fun p a => finalUtility (fun a : Act 2 => (a 0 : ℚ) + 2 * (a 1 : ℚ)) p a)
    rfl 0 ![0, 1] (by decide) (by decide)

/-- Claim C8: for every `game_type` other than `"random"` and
`"congestion"`, `make_game` matches neither branch, falls through, and
returns `None`. -/
theorem make_game_unsupported_kind_none
    (game_type : String) (n k : ℕ) (potDraw : Act k → ℚ)
    (congDraw : ℕ → ℕ → ℚ)
    (h1 : game_type ≠ "random") (h2 : game_type ≠ "congestion") :
    make_game game_type n k potDraw congDraw = none := by
  simp [make_game, h1, h2]

/-- Witness for C8: `make_game "foo" 1 1 … = none`. -/
theorem make_game_unsupported_kind_none_witness :
    make_game "foo" 1 1 (fun _ : Act 1 => (0 : ℚ)) (fun _ _ => 0) = none :=
  make_game_unsupported_kind_none "foo" 1 1 _ _ (by decide) (by decide)

/-- Claim C2 (spec-modelled, `utils/algos.py` is not among the sources):
at every round, before and after each confidence-bound update,
`OptPhi[a] ≥ PesPhi[a]` holds for every action `a`, given the spec's
bound shape `estimate ± c · f(t)` with non-negative `c` and `f`. -/
theorem tracker_opt_ge_pes {α : Type} (s : TrackerState α)
    (hc : 0 ≤ s.c) (hf : 0 ≤ s.fT) (a : α) :
    PesPhiT s a ≤ OptPhiT s a ∧
    ∀ (e : α → ℚ) (f : ℚ), 0 ≤ f →
      PesPhiT (trackerUpdate s e f) a ≤ OptPhiT (trackerUpdate s e f) a := by
  constructor
  · have := mul_nonneg hc hf
    rw [PesPhiT, OptPhiT]
    linarith
  · intro e f hfnew
    have : 0 ≤ s.c * f := mul_nonneg hc hfnew
    rw [PesPhiT, OptPhiT, trackerUpdate]
    dsimp
    linarith

/-- Witness for C2 at a concrete tracker state (`c = 1`, `f(t) = 1`). -/
theorem tracker_opt_ge_pes_witness :
    PesPhiT (⟨fun _ => 0, 1, 1⟩ : TrackerState ℕ) 0 ≤
      OptPhiT (⟨fun _ => 0, 1, 1⟩ : TrackerState ℕ) 0 :=
  (tracker_opt_ge_pes (⟨fun _ => 0, 1, 1⟩ : TrackerState ℕ)
    (by norm_num) (by norm_num) 0).1

/-- Claim C3, failing input: on the `3 × 3` state `g3` the first
unexplored cell is `(0, 2)`, so `random_index` executes
`ind_to_prob_matrix_one_zero(0, 2, 3)`; the returned "distribution" is a
tensor of shape `[2, 2, 2]` whose entries sum to `4`, not `1` — the call
sites pass two scalar indices to a callee expecting `(sample_tuple, n,
k)`, so a whole first-axis slice is set to `1`. -/
theorem random_index_prob_matrix_not_normalized :
    random_index_sel g3 = some (0, 2) ∧
    g3.KnownU1 (0, 2) = none ∧
    (random_index g3).map (fun p => p.2.shape) = some [2, 2, 2] ∧
    (random_index g3).map (fun p => tensorSum p.2) = some 4 ∧
    (4 : ℚ) ≠ 1 := by
  have hsel : random_index_sel g3 = some (0, 2) := by decide
  have h1 : random_index g3 = ind_to_prob_scalar 0 2 3 := by
    rw [random_index, hsel]; rfl
  have hfull : random_index g3 =
      some (0, ⟨[2, 2, 2], fun l => if l.head? = some 0 then 1 else 0⟩) := by
    rw [h1, ind_to_prob_scalar, if_pos (by norm_num)]
    rfl
  have hsum : tensorSum ⟨[2, 2, 2], fun l => if l.head? = some 0 then 1 else 0⟩
      = 4 := by
    show (List.map _ (idxLists [2, 2, 2])).sum = 4
    have h : idxLists [2, 2, 2] =
        [[0,0,0],[0,0,1],[0,1,0],[0,1,1],[1,0,0],[1,0,1],[1,1,0],[1,1,1]] := by
      decide
    rw [h]
    norm_num
  refine ⟨hsel, by decide, ?_, ?_, by norm_num⟩
  · rw [hfull]; rfl
  · rw [hfull]
    exact congrArg some hsum

/-- Claim C4, failing input: on `g4` the unexplored cell `(1, 1)` has the
greatest uncertainty and `OptPhi (1,1) > max PesPhi`, so the claim says
`descending_active` selects it; but the loop's inner test
`np.isnan(OptPhi[row, col])` can never hold under the outer test
`OptPhi[row, col] > np.max(PesPhi)` (a NaN compares false), so the code
falls through to the row-major fallback and selects `(0, 1)` instead. -/
theorem descending_active_selects_fallback :
    descending_active_sel g4 = some (0, 1) ∧
    g4.KnownU1 (1, 1) = none ∧
    fgt (g4.OptPhi (1, 1)) (maxPes g4) = true ∧
    ((0, 1) : ℕ × ℕ) ≠ (1, 1) := by
  refine ⟨?_, by decide, by decide, by decide⟩
  rw [descending_active_sel_eq_firstUnknown]
  decide

/-- Claim C5, counterexample: on `g5` the `OptPhi`-argmax `(0,0)` is
explored and exactly one unexplored action, `(1,0)`, satisfies
`OptPhi ≥ max PesPhi`, so the claim requires `random_active` to select
it; the code's `len(nan_new_act) > 1` guard skips the uniform-choice
branch and falls back to the row-major-first unexplored cell `(0,1)`,
which is not plausibly optimal. -/
theorem random_active_skips_unique_candidate :
    random_active_sel g5 0 = some (0, 1) ∧
    fge (g5.OptPhi (0, 1)) (maxPes g5) = false ∧
    g5.KnownU1 (1, 0) = none ∧
    fge (g5.OptPhi (1, 0)) (maxPes g5) = true ∧
    ((0, 1) : ℕ × ℕ) ≠ (1, 0) := by
  refine ⟨?_, by decide, by decide, by decide, by decide⟩
  decide

/-- Claim C5 as amended: `random_active` picks the `OptPhi`-argmax when
it is unexplored; otherwise, when more than one unexplored action has
`OptPhi ≥ max PesPhi`, it returns the uniformly drawn element of that
candidate list (position `r % length` for the RNG draw `r`, hence uniform
over the candidates, every selection lying in the list); otherwise —
including when exactly one such candidate exists — it falls back to the
first unexplored action in row-major order. -/
theorem random_active_branch_behaviour (g : GameState) (r : ℕ) (c : ℕ × ℕ)
    (hc : npArgmax (cells g.n) g.OptPhi = some c) :
    ((g.KnownU1 c).isNone = true → random_active_sel g r = some c) ∧
    ((g.KnownU1 c).isNone = false →
      (1 < (activeCands g).length →
        random_active_sel g r = (activeCands g).get? (r % (activeCands g).length) ∧
        ∀ d, random_active_sel g r = some d → d ∈ activeCands g) ∧
      (¬ 1 < (activeCands g).length →
        random_active_sel g r = firstUnknown g)) := by
  constructor
  · intro hk
    simp [random_active_sel, hc, hk]
  · intro hk
    refine ⟨fun hlen => ?_, fun hlen => ?_⟩
    · have hsel : random_active_sel g r =
          (activeCands g).get? (r % (activeCands g).length) := by
        simp [random_active_sel, hc, hk, hlen]
      exact ⟨hsel, fun d hd => by rw [hsel] at hd; exact List.get?_mem hd⟩
    · simp [random_active_sel, hc, hk, hlen]

/-- Witness for the amended C5 on `g5` with RNG draw `0`: the argmax
`(0,0)` is explored and the candidate list has length `1`, so the
selection is the fallback cell. -/
theorem random_active_branch_behaviour_witness :
    random_active_sel g5 0 = firstUnknown g5 :=
  ((random_active_branch_behaviour g5 0 (0, 0) (by decide)).2
    (by decide)).2 (by decide)

/-- Claim C6, counterexample: on `g6` two actions, `(0,1)` and `(1,1)`,
are unexplored, yet `random_index` — which consumes no randomness —
always selects `(0,1)`, the row-major-first one; the selection is a pure
function of the state, so `(1,1)` is selected with probability `0`, not
`1/2`. -/
theorem random_index_not_uniform :
    random_index_sel g6 = some (0, 1) ∧
    g6.KnownU1 (1, 1) = none ∧
    ((0, 1) : ℕ × ℕ) ≠ (1, 1) := by
  refine ⟨by decide, by decide, by decide⟩

/-- Claim C6 as amended: whenever `random_index` selects a cell, that
cell is unexplored and every cell strictly before it in the row-major
enumeration is explored — a deterministic first-unexplored rule, not a
uniform draw. -/
theorem random_index_first_row_major (g : GameState) (c : ℕ × ℕ)
    (h : random_index_sel g = some c) :
    g.KnownU1 c = none ∧
    ∃ pre post, cells g.n = pre ++ c :: post ∧
      ∀ d ∈ pre, g.KnownU1 d ≠ none := by
  obtain ⟨hpc, pre, post, hl, hpre⟩ := find?_split _ _ _ h
  refine ⟨Option.isNone_iff_eq_none.mp hpc, pre, post, hl, ?_⟩
  intro d hd hnone
  have := hpre d hd
  rw [hnone] at this
  simp at this

/-- Witness for the amended C6 on `g6`: the selected cell `(0,1)` is
unexplored and all earlier cells are explored. -/
theorem random_index_first_row_major_witness :
    g6.KnownU1 (0, 1) = none ∧
    ∃ pre post, cells g6.n = pre ++ (0, 1) :: post ∧
      ∀ d ∈ pre, g6.KnownU1 d ≠ none :=
  random_index_first_row_major g6 (0, 1) (by decide)

/-- Claim C7: whenever `random_index` or `opt_then_random` selects an
action, that action's entry in the known-utility tensor is still the NaN
sentinel (unexplored); when every action is known both functions fall off
the end and select nothing. -/
theorem selection_never_known (g : GameState) (c : ℕ × ℕ) :
    (random_index_sel g = some c → g.KnownU1 c = none) ∧
    (opt_then_random_sel g = some c → g.KnownU1 c = none) := by
  constructor
  · exact firstUnknown_unexplored g c
  · intro h
    rcases harg : npArgmax (cells g.n) g.OptPhi with _ | c'
    · simp [opt_then_random_sel, harg] at h
    · by_cases hk : (g.KnownU1 c').isNone
      · simp [opt_then_random_sel, harg, hk] at h
        rw [← h]
        exact Option.isNone_iff_eq_none.mp hk
      · have hk' : (g.KnownU1 c').isNone = false := by
          revert hk; cases (g.KnownU1 c').isNone <;> simp
        simp only [opt_then_random_sel, harg, hk'] at h
        simp at h
        exact firstUnknown_unexplored g c h

/-- Witness for C7 on `g6`: the selection `(0,1)` of `random_index` is
indeed unexplored. -/
theorem selection_never_known_witness : g6.KnownU1 (0, 1) = none :=
  (selection_never_known g6 (0, 1)).1 (by decide)

/-- Claim C9: `random_index` and `opt_then_random` are deterministic —
their embeddings consume no random input because the source functions
call no random primitive — so equal game states give equal results; and
the "random" fallback is exactly `firstUnknown`, the first unexplored
cell in row-major enumeration order. -/
theorem strategies_deterministic :
    (∀ g g' : GameState, g = g' →
      random_index_sel g = random_index_sel g' ∧
      opt_then_random_sel g = opt_then_random_sel g') ∧
    (∀ g : GameState, random_index_sel g = firstUnknown g) ∧
    (∀ (g : GameState) (c : ℕ × ℕ),
      npArgmax (cells g.n) g.OptPhi = some c →
      (g.KnownU1 c).isNone = false →
      opt_then_random_sel g = firstUnknown g) := by
  refine ⟨fun g g' h => by subst h; exact ⟨rfl, rfl⟩, fun g => rfl, ?_⟩
  intro g c hc hk
  simp [opt_then_random_sel, hc, hk]

/-- Witness for C9 on `g5`: the `OptPhi`-argmax `(0,0)` is explored, so
`opt_then_random` lands in the fallback, the first row-major unexplored
cell. -/
theorem strategies_deterministic_witness :
    opt_then_random_sel g5 = firstUnknown g5 :=
  strategies_deterministic.2.2 g5 (0, 0) (by decide) (by decide)

end ONFS
